import Mathlib

/-!
Verification of the fiverr bridge's migration engine and templated
identifier formatter.  Python strings are embedded as `List Char`, Python
integers as `Int`, and fallible operations as `Except PyErr`.  The
definitions follow `mautrix/util/async_db/upgrade.py` and
`mautrix/util/simple_template.py`; collaborators that are not part of the
visible sources (database handle, transaction scope, dialect descriptor)
are modelled from the specification and marked as such.
-/

/-- Exception universe for the embedded Python code. -/
inductive PyErr where
  | valueError
  | typeError
  | keyError
  | indexError
  | userError (msg : List Char)
deriving DecidableEq, Repr

/-- Convenience: the characters of a Lean string literal. -/
def toL (s : String) : List Char := s.toList

/-- Boolean test that the first list is a prefix of the second
(the comparison `val[:n] == p` below reduces to this). -/
def listIsPre : List Char → List Char → Bool
  | [], _ => true
  | _ :: _, [] => false
  | a :: as, b :: bs => a == b && listIsPre as bs

/-- Python slice `s[a:b]` on a list of characters: negative endpoints count
from the end and everything is clamped into range, never raising. -/
def pySlice (s : List Char) (a b : Int) : List Char :=
  let n : Int := s.length
  let lo : Int := if a < 0 then max (n + a) 0 else min a n
  let hi : Int := if b < 0 then max (n + b) 0 else min b n
  (s.take hi.toNat).drop lo.toNat

/-- Helper for `strFind`: first index `≥ i` at which `needle` occurs. -/
def strFindAux (needle : List Char) : List Char → Nat → Option Nat
  | [], i => if listIsPre needle [] then some i else none
  | a :: t, i => if listIsPre needle (a :: t) then some i else strFindAux needle t (i + 1)

/-- Python `hay.find(needle)`: index of the first occurrence, or -1. -/
def strFind (hay needle : List Char) : Int :=
  match strFindAux needle hay 0 with
  | some i => (i : Int)
  | none => -1

/-- The literal placeholder text for a keyword `kw`. -/
def placeholderOf (kw : List Char) : List Char := '{' :: (kw ++ ['}'])

/-- Embedding of `SimpleTemplate` (`simple_template.py`).  The Python
class is generic in a target type whose constructor may raise; the
constructor is the `ofStr` field (raising modelled by `Except`) and
Python's `str()` on the target type is the `toStr` field. -/
structure SimpleTemplate (T : Type) where
  template : List Char
  keyword : List Char
  pref : List Char
  suff : List Char
  ofStr : List Char → Except PyErr T
  toStr : T → List Char

/-- Embedding of `SimpleTemplate.__init__`: locates the placeholder with
`str.find` (which yields -1 when absent, without raising) and splits the
template by Python slicing.  The function is total: no code path of the
Python constructor raises. -/
def SimpleTemplate.init (template keyword outerPre outerSuf : List Char)
    (ofStr : List Char → Except PyErr T) (toStr : T → List Char) : SimpleTemplate T :=
  let index : Int := strFind template (placeholderOf keyword)
  let length : Int := keyword.length + 2
  { template := template
    keyword := keyword
    pref := outerPre ++ pySlice template 0 index
    suff := pySlice template (index + length) template.length ++ outerSuf
    ofStr := ofStr
    toStr := toStr }

/-- Embedding of `SimpleTemplate.format_full`: prefix ++ str(arg) ++ suffix. -/
def SimpleTemplate.format_full (t : SimpleTemplate T) (arg : T) : List Char :=
  t.pref ++ t.toStr arg ++ t.suff

/-- Modelled from the spec: Python `str.format` standard field
substitution (`template.format(**{keyword: arg})`), for templates made of
literal text, the escapes produced by doubled braces, and simple named
replacement fields; conversion specifiers and auto-numbered fields are out
of scope.  The accumulator is `none` in literal text and `some fieldAcc`
inside a replacement field. -/
def pfAux (kw arg : List Char) : List Char → Option (List Char) → Except PyErr (List Char)
  | [], none => .ok []
  | [], some _ => .error .valueError
  | c :: rest, none =>
    if c = '{' then
      match rest with
      | [] => .error .valueError
      | d :: rest2 =>
        if d = '{' then (fun r => '{' :: r) <$> pfAux kw arg rest2 none
        else pfAux kw arg (d :: rest2) (some [])
    else if c = '}' then
      match rest with
      | [] => .error .valueError
      | d :: rest2 =>
        if d = '}' then (fun r => '}' :: r) <$> pfAux kw arg rest2 none
        else .error .valueError
    else (fun r => c :: r) <$> pfAux kw arg rest none
  | c :: rest, some acc =>
    if c = '}' then
      if acc = kw then (fun r => arg ++ r) <$> pfAux kw arg rest none
      else .error .keyError
    else if c = '{' then .error .valueError
    else pfAux kw arg rest (some (acc ++ [c]))

/-- Python `template.format(**{kw: arg})` as used by `SimpleTemplate.format`. -/
def pyFormat (kw arg template : List Char) : Except PyErr (List Char) :=
  pfAux kw arg template none

/-- Embedding of `SimpleTemplate.format`: substitutes into the original
template string (not the reconstructed prefix/suffix). -/
def SimpleTemplate.format (t : SimpleTemplate T) (arg : T) : Except PyErr (List Char) :=
  pyFormat t.keyword (t.toStr arg) t.template

/-- The `try: return self._type(...) except ValueError: pass` pattern of
`SimpleTemplate.parse`: a ValueError from the target type's constructor is
swallowed into `None`, any other exception propagates. -/
def handleVE (r : Except PyErr T) : Except PyErr (Option T) :=
  match r with
  | .ok v => .ok (some v)
  | .error .valueError => .ok none
  | .error e => .error e

/-- Embedding of `SimpleTemplate.parse`.  `val[:len(prefix)] == prefix`,
`val[-len(suffix):] == suffix` and `val[start:end]` are Python slices,
hence the clamping semantics (an empty suffix leaves the tail
unconstrained, and prefix/suffix may overlap on short inputs). -/
def SimpleTemplate.parseE (t : SimpleTemplate T) (val : List Char) : Except PyErr (Option T) :=
  let prefixOk := pySlice val 0 t.pref.length = t.pref
  let hasSuffix := 0 < t.suff.length
  let suffixOk := ¬ hasSuffix ∨ pySlice val (-(t.suff.length : Int)) val.length = t.suff
  if prefixOk ∧ suffixOk then
    let start : Int := t.pref.length
    let stop : Int := if hasSuffix then -(t.suff.length : Int) else (val.length : Int)
    handleVE (t.ofStr (pySlice val start stop))
  else
    .ok none

/-- Modelled from the spec: the integer target type's construction
(Python `int(str)` restricted to an optional sign followed by one or more
decimal digits; underscores and surrounding whitespace are out of scope);
it fails only with ValueError. -/
def pyIntOfStr (s : List Char) : Except PyErr Int :=
  let core : List Char → Except PyErr Nat := fun ds =>
    if ds ≠ [] ∧ ds.all Char.isDigit then
      .ok (ds.foldl (fun n c => 10 * n + (c.toNat - '0'.toNat)) 0)
    else
      .error .valueError
  match s with
  | '-' :: rest => (fun n => -(n : Int)) <$> core rest
  | '+' :: rest => (fun n => (n : Int)) <$> core rest
  | _ => (fun n => (n : Int)) <$> core s

/-- Decimal digits of a natural number (auxiliary, fuelled). -/
def natDigitsAux : Nat → Nat → List Char
  | 0, _ => []
  | fuel + 1, n =>
    if n = 0 then []
    else natDigitsAux fuel (n / 10) ++ [Char.ofNat ('0'.toNat + n % 10)]

/-- Modelled from the spec: Python `str()` on an integer (decimal). -/
def pyIntToStr (i : Int) : List Char :=
  let natPart : Nat → List Char := fun n =>
    if n = 0 then ['0'] else natDigitsAux (n + 1) n
  if i < 0 then '-' :: natPart (-i).toNat
  else natPart i.toNat

/-! ## Migration engine (`mautrix/util/async_db/upgrade.py`) -/

/-- Modelled from the spec: the schema/dialect descriptor (`Scheme`)
passed through to step bodies; an opaque capability marker. -/
inductive Scheme where
  | postgres
  | sqlite
deriving DecidableEq, Repr

/-- Modelled from the spec: the visible state of the database collaborator.
`hasVersionTable` records whether the version table exists, `versionRow`
the single persisted version row (delete-then-insert keeps at most one),
and `applied` an abstract log of schema writes performed by step bodies. -/
structure DbData where
  hasVersionTable : Bool
  versionRow : Option Int
  applied : List (List Char)
deriving DecidableEq, Repr

/-- Result of running a step body (an `async` Python function of the
connection and scheme): either a normal return carrying `Optional[int]`
and the database state it left behind, or a raised exception together
with the state at the moment of the raise (partial writes included). -/
inductive BodyRes where
  | ok (ret : Option Int) (db : DbData)
  | err (e : PyErr) (db : DbData)

/-- The two-argument upgrade body contract `(conn, scheme) -> Optional[int]`. -/
def BodyFn : Type := DbData → Scheme → BodyRes

/-- A step body as written by the user, before `_wrap_upgrade`: either a
connection-only body or a full two-argument body.  The arity that
`inspect.signature` discovers at runtime is carried as an explicit tag. -/
inductive PreStep where
  | oneArg (f : DbData → BodyRes)
  | twoArg (f : BodyFn)

/-- Embedding of `_wrap_upgrade`: adapts a connection-only body to the
two-argument contract, passes a two-argument body through unchanged. -/
def wrapUpgrade : PreStep → BodyFn
  | .oneArg f => fun db _ => f db
  | .twoArg f => f

/-- The value of the `__mau_db_upgrade_destination__` attribute: an
integer target version or a (wrapped) callable computing one. -/
inductive UDest where
  | toInt (n : Int)
  | toFn (f : BodyFn)

/-- A registered upgrade step: the function object together with the
attributes `register` attaches (`getattr` defaults for absent attributes
are `None` for description/destination and `True` for the transaction
flag, which is what an unregistered function such as `noop_upgrade`
reports). -/
structure UStep where
  desc : Option (List Char)
  transaction : Bool
  destination : Option UDest
  body : BodyFn

/-- Embedding of `noop_upgrade`: a bare `async def` with no attributes
whose body does nothing and returns `None`. -/
def noopStep : UStep :=
  { desc := none, transaction := true, destination := none, body := fun db _ => .ok none db }

/-- Embedding of `UpgradeTable`'s persistent fields. -/
structure UpgradeTable where
  upgrades : List UStep
  allowUnsupported : Bool
  versionTableName : List Char
  databaseName : List Char

/-- Embedding of `UpgradeTable.__init__` with its default arguments. -/
def UpgradeTable.init (allowUnsupported : Bool := false)
    (versionTableName : List Char := toL "version")
    (databaseName : List Char := toL "database") : UpgradeTable :=
  { upgrades := [], allowUnsupported := allowUnsupported
    versionTableName := versionTableName, databaseName := databaseName }

/-- Python list indexing `l[i]`: negative indices count from the end,
out-of-range indices raise IndexError. -/
def pyIndex (l : List α) (i : Int) : Except PyErr α :=
  let j : Int := if i < 0 then (l.length : Int) + i else i
  if j < 0 then .error .indexError
  else
    match l.get? j.toNat with
    | some a => .ok a
    | none => .error .indexError

/-- Python list item assignment `l[i] = a`: negative indices count from
the end, out-of-range indices raise IndexError. -/
def pyListSet (l : List α) (i : Int) (a : α) : Except PyErr (List α) :=
  let j : Int := if i < 0 then (l.length : Int) + i else i
  if j < 0 then .error .indexError
  else if j < (l.length : Int) then .ok (l.set j.toNat a)
  else .error .indexError

/-- The `upgrades_to` argument of `register`: an integer or a raw step
body (`int | Upgrade | None`, with `None` as the surrounding `Option`). -/
def UDestArg : Type := Sum Int PreStep

/-- The destination attribute `register` stores:
`upgrades_to if not upgrades_to or isinstance(upgrades_to, int) else
_wrap_upgrade(upgrades_to)` — integers (and `None`) pass through, a
callable is wrapped. -/
def mkDest : Option UDestArg → Option UDest
  | none => none
  | some (.inl n) => some (.toInt n)
  | some (.inr f) => some (.toFn (wrapUpgrade f))

/-- The step value `actually_register` constructs: the wrapped body with
the three metadata attributes attached (`description` defaults to `""`). -/
def mkRegStep (description : List Char) (transaction : Bool)
    (upgradesTo : Option UDestArg) (fn : PreStep) : UStep :=
  { desc := some description, transaction := transaction
    destination := mkDest upgradesTo, body := wrapUpgrade fn }

/-- Embedding of the inner `actually_register` closure of
`UpgradeTable.register`: wraps and tags the function, then places it —
append when `index` is -1 or equals the current length, otherwise pad
with `noop_upgrade` up to `index` when the list is too short and assign
`self.upgrades[index]` (Python item assignment, so other negative indices
wrap around or raise IndexError). -/
def actuallyRegister (t : UpgradeTable) (index : Int) (description : List Char)
    (transaction : Bool) (upgradesTo : Option UDestArg) (fn : PreStep) :
    Except PyErr (UpgradeTable × UStep) :=
  let step := mkRegStep description transaction upgradesTo fn
  if index = -1 ∨ index = (t.upgrades.length : Int) then
    .ok ({ t with upgrades := t.upgrades ++ [step] }, step)
  else
    let l :=
      if (t.upgrades.length : Int) ≤ index then
        t.upgrades ++ List.replicate ((index - t.upgrades.length).toNat + 1) noopStep
      else t.upgrades
    match pyListSet l index step with
    | .ok l2 => .ok ({ t with upgrades := l2 }, step)
    | .error e => .error e

/-- Result of a call to `register`: either the registered step (when the
function was passed directly) or the decorator closure awaiting it. -/
inductive RegisterResult where
  | registered (r : Except PyErr (UpgradeTable × UStep))
  | decorator (k : PreStep → Except PyErr (UpgradeTable × UStep))

/-- Embedding of `UpgradeTable.register`.  `index` may be an integer or
(keyword-abuse tolerated by the code) a string, in which case it becomes
the description and the index reverts to -1; with a function argument the
registration happens immediately, otherwise the decorator is returned. -/
def UpgradeTable.register (t : UpgradeTable) (outerFn : Option PreStep)
    (index : Sum Int (List Char)) (description : List Char)
    (transaction : Bool) (upgradesTo : Option UDestArg) : RegisterResult :=
  let p : Int × List Char :=
    match index with
    | .inl i => (i, description)
    | .inr s => (-1, s)
  match outerFn with
  | some fn => .registered (actuallyRegister t p.1 p.2 transaction upgradesTo fn)
  | none => .decorator (actuallyRegister t p.1 p.2 transaction upgradesTo)

/-- A Python value passed positionally to `register`. -/
inductive PyObject where
  | func (f : PreStep)
  | int (n : Int)
  | str (s : List Char)

/-- Models the Python call binding of `UpgradeTable.register`: the
signature `register(self, _outer_fn=None, *, index=-1, ...)` accepts at
most one positional argument, so a second positional argument raises
TypeError; a truthy non-function positional argument reaches
`inspect.signature` inside `_wrap_upgrade`, which also raises TypeError,
while a falsy one (0 or the empty string) fails the `if _outer_fn` test
and yields the decorator, exactly as `None` does. -/
def registerBind (t : UpgradeTable) (positional : List PyObject)
    (index : Sum Int (List Char)) (description : List Char)
    (transaction : Bool) (upgradesTo : Option UDestArg) :
    Except PyErr RegisterResult :=
  match positional with
  | [] => .ok (t.register none index description transaction upgradesTo)
  | [.func f] => .ok (t.register (some f) index description transaction upgradesTo)
  | [.int n] =>
    if n = 0 then .ok (t.register none index description transaction upgradesTo)
    else .error .typeError
  | [.str s] =>
    if s = [] then .ok (t.register none index description transaction upgradesTo)
    else .error .typeError
  | _ => .error .typeError

/-- Observable operations performed by `upgrade()` against the database
and the logging collaborators, in order. -/
inductive Event where
  | createTable
  | readVersion
  | acquireConn
  | txBegin
  | txCommit
  | txRollback
  | runDest (idx : Int)
  | runBody (idx : Int)
  | saveVersion (v : Int)
  | logDebugCurrent
  | logDebugUpgrading (fromV : Int) (toV : Option Int)
  | logWarnUnsupported (name : List Char) (current : Int) (latest : Nat)
  | logWarnMismatch (fromV : Int) (toV : Int)
deriving DecidableEq, Repr

/-- Errors that abort an `upgrade()` call. -/
inductive UpgradeError where
  | unsupportedDatabaseVersion (name : List Char) (current : Int) (latest : Nat)
  | py (e : PyErr)
deriving DecidableEq, Repr

/-- Result of an `upgrade()` call (or of the remaining loop): success,
a propagated error, or exhaustion of the fuel that bounds the unboundedly
jumping `while` loop.  Each carries the final database state and the
event trace. -/
inductive Outcome where
  | ok (db : DbData) (evs : List Event)
  | failed (e : UpgradeError) (db : DbData) (evs : List Event)
  | outOfFuel (version : Int) (db : DbData) (evs : List Event)
deriving Repr

/-- Embedding of `UpgradeTable._save_version`: `DELETE FROM version`
followed by `INSERT INTO version (version) VALUES ($1)` leaves exactly
one row. -/
def saveVersionDb (db : DbData) (v : Int) : DbData :=
  { db with versionRow := some v }

/-- Python truthiness of the destination attribute in
`getattr(upgrade, "__mau_db_upgrade_destination__", None) or version + 1`:
`None` and the integer 0 are falsy and yield the default, a nonzero
integer is the target, a function is truthy and is returned for the
subsequent `callable` check. -/
def destTruthy (d : Option UDest) (dflt : Int) : Sum Int BodyFn :=
  match d with
  | none => .inl dflt
  | some (.toInt n) => if n = 0 then .inl dflt else .inl n
  | some (.toFn f) => .inr f

/-- Python truthiness in `await upgrade(conn, db.scheme) or new_version`:
a `None` or zero return falls back to `new_version` (itself `Optional`
when a callable destination returned `None`). -/
def pyOrInt (ret : Option Int) (newVersion : Option Int) : Option Int :=
  match ret with
  | some n => if n = 0 then newVersion else some n
  | none => newVersion

/-- The events of one successful loop iteration: the debug line, the
(optionally transaction-wrapped) body run and version save, and the
mismatch warning when the resulting version differs from the computed
one. -/
def iterEvents (transaction : Bool) (oldV : Int) (newVersion : Option Int) (v : Int) :
    List Event :=
  [.logDebugUpgrading oldV newVersion] ++
    (if transaction then [.txBegin, .runBody oldV, .saveVersion v, .txCommit]
     else [.runBody oldV, .saveVersion v]) ++
    (if some v ≠ newVersion then [.logWarnMismatch oldV v] else [])

/-- The target-version resolution of one loop iteration:
`new_version = getattr(upgrade, "__mau_db_upgrade_destination__", None)
or version + 1`, then, when the result is callable,
`new_version = await new_version(conn, db.scheme)`.  The callable runs
on the connection before any transaction opens, so its effects on the
database persist even if the subsequent body fails; it may itself raise
(propagated) and may return `None`. -/
def resolveDest (dest : Option UDest) (version : Int) (db : DbData) (sch : Scheme) :
    Except (UpgradeError × DbData × List Event) (Option Int × DbData × List Event) :=
  match destTruthy dest (version + 1) with
  | .inl n => .ok (some n, db, [])
  | .inr f =>
    match f db sch with
    | .ok ret db1 => .ok (ret, db1, [.runDest version])
    | .err e db1 => .error (.py e, db1, [.runDest version])

/-- One iteration of the `while version < len(self.upgrades)` loop of
`UpgradeTable.upgrade`: index the step, resolve the target version
(`resolveDest`, invoking a callable destination with the connection and
scheme), log, run the body — inside a transaction when the step's flag
is set, in which case a raise rolls the database back to the
pre-transaction state (modelled from the spec for `conn.transaction()`),
while a non-transactional raise keeps the partial writes — persist the
resulting version, and warn when it differs from the computed one.
Returns the resulting version (the next loop index) and the new state,
or the propagated error.  A `None` resulting version is modelled as a
TypeError (Python would fail persisting/comparing `None`). -/
def runIter (t : UpgradeTable) (sch : Scheme) (version : Int) (db : DbData) :
    Except (UpgradeError × DbData × List Event) (Int × DbData × List Event) :=
  match pyIndex t.upgrades version with
  | .error e => .error (.py e, db, [])
  | .ok step =>
    match resolveDest step.destination version db sch with
    | .error x => .error x
    | .ok (newVersion, db1, evs1) =>
      let evs2 := evs1 ++ [.logDebugUpgrading version newVersion]
      if step.transaction then
        match step.body db1 sch with
        | .err e _ => .error (.py e, db1, evs2 ++ [.txBegin, .runBody version, .txRollback])
        | .ok ret db2 =>
          match pyOrInt ret newVersion with
          | some v =>
            .ok (v, saveVersionDb db2 v,
              evs2 ++ [.txBegin, .runBody version, .saveVersion v, .txCommit] ++
                (if some v ≠ newVersion then [.logWarnMismatch version v] else []))
          | none => .error (.py .typeError, db1, evs2 ++ [.txBegin, .runBody version, .txRollback])
      else
        match step.body db1 sch with
        | .err e dbFailed => .error (.py e, dbFailed, evs2 ++ [.runBody version])
        | .ok ret db2 =>
          match pyOrInt ret newVersion with
          | some v =>
            .ok (v, saveVersionDb db2 v,
              evs2 ++ [.runBody version, .saveVersion v] ++
                (if some v ≠ newVersion then [.logWarnMismatch version v] else []))
          | none => .error (.py .typeError, db2, evs2 ++ [.runBody version])

/-- Prefixes an outcome's event trace. -/
def withEvents (evs : List Event) : Outcome → Outcome
  | .ok db evs2 => .ok db (evs ++ evs2)
  | .failed e db evs2 => .failed e db (evs ++ evs2)
  | .outOfFuel v db evs2 => .outOfFuel v db (evs ++ evs2)

/-- The `while version < len(self.upgrades)` loop, fuelled: the actual
resulting version of each iteration is the next index to run. -/
def upgradeLoop (t : UpgradeTable) (sch : Scheme) : Nat → Int → DbData → Outcome
  | 0, version, db => .outOfFuel version db []
  | fuel + 1, version, db =>
    if version < (t.upgrades.length : Int) then
      match runIter t sch version db with
      | .error (e, db1, evs) => .failed e db1 evs
      | .ok (v1, db1, evs) => withEvents evs (upgradeLoop t sch fuel v1 db1)
    else .ok db []

/-- Embedding of `UpgradeTable.upgrade`: create the version table if
absent, read the persisted version (0 when there is no row), reject a
database that is ahead of the registered steps (fatally, or with only a
warning when unsupported versions are allowed), return untouched when
already current, and otherwise acquire a connection and run the loop. -/
def UpgradeTable.upgrade (t : UpgradeTable) (sch : Scheme) (fuel : Nat) (db : DbData) :
    Outcome :=
  let db0 := { db with hasVersionTable := true }
  let evs0 : List Event := [.createTable, .readVersion]
  let version : Int := db0.versionRow.getD 0
  if (t.upgrades.length : Int) < version then
    if !t.allowUnsupported then
      .failed (.unsupportedDatabaseVersion t.databaseName version t.upgrades.length) db0 evs0
    else
      .ok db0 (evs0 ++ [.logWarnUnsupported t.databaseName version t.upgrades.length])
  else if (t.upgrades.length : Int) = version then
    .ok db0 (evs0 ++ [.logDebugCurrent])
  else
    withEvents (evs0 ++ [.acquireConn]) (upgradeLoop t sch fuel version db0)

/-- The events of an outcome. -/
def outcomeEvents : Outcome → List Event
  | .ok _ evs => evs
  | .failed _ _ evs => evs
  | .outOfFuel _ _ evs => evs

/-- A list of characters containing no brace characters. -/
def braceFree (l : List Char) : Bool :=
  l.all (fun c => !(c == '{') && !(c == '}'))

/-! ## Concrete instances used by the individual claims -/

/-- The string target type: `str(str) = str`, never raising. -/
def strOfStr : List Char → Except PyErr (List Char) := fun s => .ok s

/-- The round-trip template of the spec: `"urn:li:msg:{id}"` with integer
target type. -/
def urnTemplate : SimpleTemplate Int :=
  SimpleTemplate.init (toL "urn:li:msg:{id}") (toL "id") [] [] pyIntOfStr pyIntToStr

/-- The empty-suffix template of the spec: `"prefix-{id}"` with string
target type. -/
def rawIdTemplate : SimpleTemplate (List Char) :=
  SimpleTemplate.init (toL "prefix-{id}") (toL "id") [] [] strOfStr id

/-- A template whose derived prefix and suffix overlap on short inputs:
`"ab{id}b"` splits into prefix `"ab"` and suffix `"b"`. -/
def overlapTemplate : SimpleTemplate (List Char) :=
  SimpleTemplate.init (toL "ab{id}b") (toL "id") [] [] strOfStr id

/-- A template without the `{id}` placeholder (`find` yields -1). -/
def absentTemplate : SimpleTemplate (List Char) :=
  SimpleTemplate.init (toL "abc") (toL "id") [] [] strOfStr id

/-- A well-formed template constructed with a caller-supplied outer
prefix `"P"`. -/
def outerPrefTemplate : SimpleTemplate (List Char) :=
  SimpleTemplate.init (toL "a{id}b") (toL "id") (toL "P") [] strOfStr id

/-- A transactional step whose body performs no writes and returns the
explicit version 0 (non-null in Python terms, but falsy). -/
def zeroStep : UStep :=
  { desc := some [], transaction := true, destination := none,
    body := fun db _ => .ok (some 0) db }

/-- A registry holding only `zeroStep`. -/
def zeroTable : UpgradeTable := { UpgradeTable.init with upgrades := [zeroStep] }

/-- A database with no version table yet. -/
def freshDb : DbData := { hasVersionTable := false, versionRow := none, applied := [] }

/-- A registry holding a single no-op step. -/
def noopTable : UpgradeTable := { UpgradeTable.init with upgrades := [noopStep] }

/-- A database already at version 1. -/
def currentDb : DbData := { hasVersionTable := true, versionRow := some 1, applied := [] }

/-- A database already at version 2. -/
def dbAt2 : DbData := { hasVersionTable := true, versionRow := some 2, applied := [] }

/-- A transactional step whose body returns the explicit version 10. -/
def jumpStep : UStep :=
  { desc := some (toL "jump"), transaction := true, destination := none,
    body := fun db _ => .ok (some 10) db }

/-- An 11-step registry whose step at index 2 is `jumpStep`; its computed
default target there is 3 while the body returns 10. -/
def t11 : UpgradeTable :=
  { UpgradeTable.init with upgrades := (List.replicate 11 noopStep).set 2 jumpStep }

/-- A transactional step whose body writes one statement and then raises. -/
def failStep : UStep :=
  { desc := none, transaction := true, destination := none,
    body := fun db _ =>
      .err (.userError (toL "boom")) { db with applied := db.applied ++ [toL "ddl"] } }

/-- A registry holding only `failStep`. -/
def failTable : UpgradeTable := { UpgradeTable.init with upgrades := [failStep] }

/-- A plain two-argument step body used in registration examples. -/
def regFn : PreStep := .twoArg (fun db _ => .ok none db)

/-- A database with the version table present and version 0 persisted. -/
def dbAt0 : DbData := { hasVersionTable := true, versionRow := some 0, applied := [] }

/-- A transactional step with a callable destination (returning 4 without
touching the database) and a body returning `None`. -/
def dynStep : UStep :=
  { desc := some (toL "dyn"), transaction := true,
    destination := some (.toFn (fun db _ => .ok (some 4) db)),
    body := fun db _ => .ok none db }

/-- A 5-step registry whose step at index 2 is `dynStep`. -/
def tDyn : UpgradeTable :=
  { UpgradeTable.init with upgrades := (List.replicate 5 noopStep).set 2 dynStep }

/-- A transactional step whose callable destination overwrites the
persisted version row with 99 (running on the connection before the
transaction opens) and whose body then raises. -/
def destWriteStep : UStep :=
  { desc := none, transaction := true,
    destination := some (.toFn (fun db _ => .ok (some 7) (saveVersionDb db 99))),
    body := fun db _ => .err (.userError (toL "boom")) db }

/-- A registry holding only `destWriteStep`. -/
def destWriteTable : UpgradeTable := { UpgradeTable.init with upgrades := [destWriteStep] }

/-- `noopTable` with unsupported versions allowed. -/
def allowTable : UpgradeTable := { noopTable with allowUnsupported := true }

/-- A database whose persisted version 5 is ahead of every one-step registry. -/
def aheadDb : DbData := { hasVersionTable := true, versionRow := some 5, applied := [] }

/-! ## Helper lemmas -/

lemma pySlice_natCast (s : List Char) (a b : Nat) :
    pySlice s (a : Int) (b : Int) = (s.take b).drop a := by
  have ha : ¬ ((a : Int) < 0) := by omega
  have hb : ¬ ((b : Int) < 0) := by omega
  simp only [pySlice, if_neg ha, if_neg hb]
  have h1 : (min (b : Int) (s.length : Int)).toNat = min b s.length := by omega
  have h2 : (min (a : Int) (s.length : Int)).toNat = min a s.length := by omega
  rw [h1, h2]
  have h3 : s.take (min b s.length) = s.take b := by
    rcases le_total b s.length with h | h
    · rw [Nat.min_eq_left h]
    · rw [Nat.min_eq_right h, List.take_length, List.take_of_length_le h]
  rw [h3]
  rcases le_total a s.length with h | h
  · rw [Nat.min_eq_left h]
  · rw [Nat.min_eq_right h]
    have hx : (s.take b).length ≤ s.length := by
      simp [List.length_take]
    rw [List.drop_eq_nil_of_le hx, List.drop_eq_nil_of_le (le_trans hx h)]

lemma pySlice_take (val : List Char) (b : Nat) :
    pySlice val 0 (b : Int) = val.take b := by
  have := pySlice_natCast val 0 b
  simpa using this

lemma pySlice_negSuffix (s : List Char) (k : Nat) (hk : 0 < k) :
    pySlice s (-(k : Int)) (s.length : Int) = s.drop (s.length - k) := by
  have hneg : (-(k : Int)) < 0 := by omega
  have hn : ¬ ((s.length : Int) < 0) := by omega
  simp only [pySlice, if_pos hneg, if_neg hn]
  have h1 : (min (s.length : Int) (s.length : Int)).toNat = s.length := by omega
  have h2 : (max ((s.length : Int) + -(k : Int)) 0).toNat = s.length - k := by omega
  rw [h1, h2, List.take_length]

lemma pySlice_pref_iff (val p : List Char) :
    (pySlice val 0 (p.length : Int) = p) ↔ p <+: val := by
  rw [pySlice_take]
  exact ⟨fun h => List.prefix_iff_eq_take.mpr h.symm,
    fun h => (List.prefix_iff_eq_take.mp h).symm⟩

lemma pySlice_suff_iff (val sfx : List Char) (hk : 0 < sfx.length) :
    (pySlice val (-(sfx.length : Int)) (val.length : Int) = sfx) ↔ sfx <:+ val := by
  rw [pySlice_negSuffix val sfx.length hk]
  exact ⟨fun h => List.suffix_iff_eq_drop.mpr h.symm,
    fun h => (List.suffix_iff_eq_drop.mp h).symm⟩

lemma parse_cond_iff (t : SimpleTemplate T) (val : List Char) :
    ((pySlice val 0 (t.pref.length : Int) = t.pref) ∧
      (¬ (0 < t.suff.length) ∨ pySlice val (-(t.suff.length : Int)) (val.length : Int) = t.suff))
    ↔ (t.pref <+: val ∧ (t.suff = [] ∨ t.suff <:+ val)) := by
  rw [pySlice_pref_iff]
  apply and_congr_right
  intro _
  by_cases hs : t.suff = []
  · simp [hs]
  · have hk : 0 < t.suff.length := List.length_pos.mpr hs
    rw [pySlice_suff_iff val t.suff hk]
    simp [hs, hk]

lemma parseE_no_match (t : SimpleTemplate T) (val : List Char)
    (h : ¬ (t.pref <+: val ∧ (t.suff = [] ∨ t.suff <:+ val))) :
    t.parseE val = .ok none := by
  unfold SimpleTemplate.parseE
  rw [if_neg]
  exact fun hc => h ((parse_cond_iff t val).mp hc)

lemma parseE_match_suffix (t : SimpleTemplate T) (val : List Char)
    (h1 : t.pref <+: val) (h2 : t.suff ≠ []) (h3 : t.suff <:+ val) :
    t.parseE val =
      handleVE (t.ofStr (pySlice val (t.pref.length : Int) (-(t.suff.length : Int)))) := by
  unfold SimpleTemplate.parseE
  rw [if_pos ((parse_cond_iff t val).mpr ⟨h1, Or.inr h3⟩)]
  rw [if_pos (List.length_pos.mpr h2)]

lemma parseE_match_empty (t : SimpleTemplate T) (val : List Char)
    (h1 : t.pref <+: val) (h2 : t.suff = []) :
    t.parseE val = handleVE (t.ofStr (val.drop t.pref.length)) := by
  unfold SimpleTemplate.parseE
  rw [if_pos ((parse_cond_iff t val).mpr ⟨h1, Or.inl h2⟩)]
  rw [if_neg (by simp [h2])]
  show handleVE (t.ofStr (pySlice val (t.pref.length : Int) (val.length : Int))) = _
  rw [pySlice_natCast val t.pref.length val.length, List.take_length]


lemma listIsPre_append (p r : List Char) : listIsPre p (p ++ r) = true := by
  induction p with
  | nil => rfl
  | cons a as ih => simp [listIsPre, ih]

lemma braceFree_cons (a : Char) (as : List Char) (h : braceFree (a :: as) = true) :
    a ≠ '{' ∧ a ≠ '}' ∧ braceFree as = true := by
  simp only [braceFree, List.all_cons, Bool.and_eq_true, Bool.not_eq_true',
    beq_eq_false_iff_ne] at h
  exact ⟨h.1.1, h.1.2, h.2⟩

lemma strFindAux_placed (nr B : List Char) :
    ∀ (A : List Char), braceFree A = true →
      ∀ i : Nat, strFindAux ('{' :: nr) (A ++ '{' :: (nr ++ B)) i = some (i + A.length) := by
  intro A
  induction A with
  | nil =>
    intro _ i
    have hp : listIsPre ('{' :: nr) ('{' :: (nr ++ B)) = true := by
      have := listIsPre_append ('{' :: nr) B
      simpa using this
    simp [strFindAux, hp]
  | cons a as ih =>
    intro hA i
    obtain ⟨ha1, _, has⟩ := braceFree_cons a as hA
    have hp : listIsPre ('{' :: nr) (a :: (as ++ '{' :: (nr ++ B))) = false := by
      have : ('{' == a) = false := by
        simp only [beq_eq_false_iff_ne]
        exact fun h => ha1 h.symm
      simp [listIsPre, this]
    rw [List.cons_append]
    rw [show strFindAux ('{' :: nr) (a :: (as ++ '{' :: (nr ++ B))) i
        = if listIsPre ('{' :: nr) (a :: (as ++ '{' :: (nr ++ B))) then some i
          else strFindAux ('{' :: nr) (as ++ '{' :: (nr ++ B)) (i + 1) from rfl]
    rw [if_neg (by simp [hp])]
    rw [ih has (i + 1)]
    congr 1
    simp
    omega

lemma strFind_placed (A kw B : List Char) (hA : braceFree A = true) :
    strFind (A ++ placeholderOf kw ++ B) (placeholderOf kw) = (A.length : Int) := by
  unfold strFind placeholderOf
  rw [show A ++ ('{' :: (kw ++ ['}'])) ++ B = A ++ '{' :: ((kw ++ ['}']) ++ B) by simp]
  rw [strFindAux_placed (kw ++ ['}']) B A hA 0]
  simp

lemma init_pref (A B kw oP oS : List Char) (ofS : List Char → Except PyErr T)
    (toS : T → List Char) (hA : braceFree A = true) :
    (SimpleTemplate.init (A ++ placeholderOf kw ++ B) kw oP oS ofS toS).pref = oP ++ A := by
  simp only [SimpleTemplate.init, strFind_placed A kw B hA]
  rw [pySlice_take]
  congr 1
  rw [List.append_assoc]
  exact List.take_left A (placeholderOf kw ++ B)

lemma init_suff (A B kw oP oS : List Char) (ofS : List Char → Except PyErr T)
    (toS : T → List Char) (hA : braceFree A = true) :
    (SimpleTemplate.init (A ++ placeholderOf kw ++ B) kw oP oS ofS toS).suff = B ++ oS := by
  simp only [SimpleTemplate.init, strFind_placed A kw B hA]
  congr 1
  have hcast : (A.length : Int) + ((kw.length : Int) + 2)
      = (((A ++ placeholderOf kw).length : Nat) : Int) := by
    simp [placeholderOf]
    ring
  rw [hcast, pySlice_natCast, List.take_length, List.drop_left]

lemma pfAux_lit (kw arg : List Char) (A rest : List Char) (hA : braceFree A = true) :
    pfAux kw arg (A ++ rest) none = (fun r => A ++ r) <$> pfAux kw arg rest none := by
  induction A with
  | nil =>
    cases h : pfAux kw arg rest none <;> simp [h]
  | cons a as ih =>
    obtain ⟨ha1, ha2, has⟩ := braceFree_cons a as hA
    rw [List.cons_append]
    rw [pfAux.eq_def]
    simp only [if_neg ha1, if_neg ha2]
    rw [ih has]
    cases h : pfAux kw arg rest none <;> simp [h]

lemma pfAux_field (kw arg B : List Char) :
    ∀ (krem kacc : List Char), kacc ++ krem = kw → braceFree krem = true →
      pfAux kw arg (krem ++ '}' :: B) (some kacc)
        = (fun r => arg ++ r) <$> pfAux kw arg B none := by
  intro krem
  induction krem with
  | nil =>
    intro kacc hk _
    simp only [List.append_nil] at hk
    rw [List.nil_append, pfAux.eq_def]
    simp [hk]
  | cons c cs ih =>
    intro kacc hk hbf
    obtain ⟨hc1, hc2, hcs⟩ := braceFree_cons c cs hbf
    rw [List.cons_append, pfAux.eq_def]
    simp only [if_neg hc2, if_neg hc1]
    exact ih (kacc ++ [c]) (by simp [← hk]) hcs

lemma pfAux_enter (kw arg B : List Char) (hkw : braceFree kw = true) (hne : kw ≠ []) :
    pfAux kw arg ('{' :: (kw ++ '}' :: B)) none
      = (fun r => arg ++ r) <$> pfAux kw arg B none := by
  obtain ⟨k0, ks, hks⟩ := List.exists_cons_of_ne_nil hne
  subst hks
  obtain ⟨hk1, hk2, hk3⟩ := braceFree_cons k0 ks hkw
  rw [pfAux.eq_def]
  simp only [List.cons_append, if_pos rfl, if_neg hk1]
  exact pfAux_field (k0 :: ks) arg B (k0 :: ks) [] rfl hkw

lemma pyFormat_placed (A B kw arg : List Char) (hA : braceFree A = true)
    (hB : braceFree B = true) (hkw : braceFree kw = true) (hne : kw ≠ []) :
    pyFormat kw arg (A ++ placeholderOf kw ++ B) = .ok (A ++ arg ++ B) := by
  unfold pyFormat
  rw [show A ++ placeholderOf kw ++ B = A ++ ('{' :: (kw ++ '}' :: B)) by
    simp [placeholderOf]]
  rw [pfAux_lit kw arg A _ hA, pfAux_enter kw arg B hkw hne]
  have hBv : pfAux kw arg B none = .ok B := by
    have h0 : pfAux kw arg ([] : List Char) none = .ok [] := rfl
    have h1 := pfAux_lit kw arg B [] hB
    rw [List.append_nil, h0] at h1
    simpa using h1
  rw [hBv]
  simp

lemma pyListSet_nonneg (l : List α) (i : Int) (a : α) (h0 : 0 ≤ i)
    (h1 : i < (l.length : Int)) :
    pyListSet l i a = .ok (l.set i.toNat a) := by
  simp only [pyListSet]
  rw [if_neg (show ¬ i < 0 by omega)]
  rw [if_neg (show ¬ i < 0 by omega), if_pos h1]

lemma set_replicate_last (k : Nat) (x a : α) :
    (List.replicate (k + 1) x).set k a = List.replicate k x ++ [a] := by
  induction k with
  | zero => rfl
  | succ n ih =>
    rw [show List.replicate (n + 1 + 1) x = x :: List.replicate (n + 1) x from
      List.replicate_succ x (n + 1)]
    show x :: (List.replicate (n + 1) x).set n a = _
    rw [ih]
    simp [List.replicate_succ]

lemma set_append_right (l1 l2 : List α) (n : Nat) (a : α) (h : l1.length ≤ n) :
    (l1 ++ l2).set n a = l1 ++ l2.set (n - l1.length) a := by
  induction l1 generalizing n with
  | nil => simp
  | cons x xs ih =>
    match n, h with
    | m + 1, h =>
      show x :: (xs ++ l2).set m a = _
      rw [ih m (by simpa using h)]
      simp only [List.cons_append, List.length_cons]
      congr 3
      omega

lemma runIter_ok_version (t : UpgradeTable) (sch : Scheme) (v : Int) (db : DbData)
    (v1 : Int) (db1 : DbData) (evs : List Event)
    (h : runIter t sch v db = .ok (v1, db1, evs)) : db1.versionRow = some v1 := by
  simp only [runIter] at h
  repeat' split at h
  all_goals first
    | (exfalso; exact Except.noConfusion h)
    | (cases h; rfl)

lemma upgradeLoop_ok_version (t : UpgradeTable) (sch : Scheme) :
    ∀ (fuel : Nat) (v : Int) (db db1 : DbData) (evs : List Event),
      v < (t.upgrades.length : Int) →
      upgradeLoop t sch fuel v db = .ok db1 evs →
      ∃ v1, db1.versionRow = some v1 ∧ (t.upgrades.length : Int) ≤ v1 := by
  intro fuel
  induction fuel with
  | zero =>
    intro v db db1 evs hv h
    exact absurd h (by simp [upgradeLoop])
  | succ n ih =>
    intro v db db1 evs hv h
    rw [upgradeLoop, if_pos hv] at h
    split at h
    · exact absurd h (by simp)
    · rename_i sc va dba evsa hri
      rcases hlo : upgradeLoop t sch n va dba with ⟨dbo, evso⟩ | ⟨e, dbo, evso⟩ | ⟨vo, dbo, evso⟩
      all_goals rw [hlo] at h
      · simp only [withEvents, Outcome.ok.injEq] at h
        obtain ⟨hdb, _⟩ := h
        by_cases hva : va < (t.upgrades.length : Int)
        · obtain ⟨v1, hv1, hge⟩ := ih va dba dbo evso hva hlo
          exact ⟨v1, by rw [← hdb]; exact hv1, hge⟩
        · cases n with
          | zero => exact absurd hlo (by simp [upgradeLoop])
          | succ m =>
            rw [upgradeLoop, if_neg hva] at hlo
            simp only [Outcome.ok.injEq] at hlo
            obtain ⟨hdb2, _⟩ := hlo
            refine ⟨va, ?_, by omega⟩
            rw [← hdb, ← hdb2]
            exact runIter_ok_version t sch v db va dba evsa hri
      · exact absurd h (by simp [withEvents])
      · exact absurd h (by simp [withEvents])

lemma upgrade_ok_ge (t : UpgradeTable) (sch : Scheme) (fuel : Nat) (db db1 : DbData)
    (evs1 : List Event) (h : t.upgrade sch fuel db = .ok db1 evs1) :
    (t.upgrades.length : Int) ≤ db1.versionRow.getD 0 := by
  simp only [UpgradeTable.upgrade] at h
  have hpr : ({ db with hasVersionTable := true } : DbData).versionRow = db.versionRow := rfl
  rw [hpr] at h
  split at h
  · split at h
    · exact absurd h (by simp)
    · simp only [Outcome.ok.injEq] at h
      obtain ⟨hdb, _⟩ := h
      rw [← hdb, hpr]
      rename_i hlt _
      omega
  · split at h
    · simp only [Outcome.ok.injEq] at h
      obtain ⟨hdb, _⟩ := h
      rw [← hdb, hpr]
      rename_i hnlt heq
      omega
    · rename_i hnlt hne
      have hv : db.versionRow.getD 0 < (t.upgrades.length : Int) := by omega
      rcases hlo : upgradeLoop t sch fuel (db.versionRow.getD 0)
          { db with hasVersionTable := true } with ⟨dbo, evso⟩ | ⟨e, dbo, evso⟩ | ⟨vo, dbo, evso⟩
      all_goals rw [hlo] at h
      · simp only [withEvents, Outcome.ok.injEq] at h
        obtain ⟨hdb, _⟩ := h
        obtain ⟨v1, hv1, hge⟩ := upgradeLoop_ok_version t sch fuel _ _ dbo evso hv hlo
        rw [← hdb, hv1]
        simpa using hge
      · exact absurd h (by simp [withEvents])
      · exact absurd h (by simp [withEvents])

lemma upgrade_noBody_of_ge (t : UpgradeTable) (sch : Scheme) (fuel : Nat) (db : DbData)
    (h : (t.upgrades.length : Int) ≤ db.versionRow.getD 0) :
    ∀ i, Event.runBody i ∉ outcomeEvents (t.upgrade sch fuel db) := by
  intro i
  simp only [UpgradeTable.upgrade]
  have hpr : ({ db with hasVersionTable := true } : DbData).versionRow = db.versionRow := rfl
  rw [hpr]
  by_cases hlt : (t.upgrades.length : Int) < db.versionRow.getD 0
  · rw [if_pos hlt]
    by_cases hall : !t.allowUnsupported
    · rw [if_pos hall]
      simp [outcomeEvents]
    · rw [if_neg hall]
      simp [outcomeEvents]
  · rw [if_neg hlt, if_pos (by omega)]
    simp [outcomeEvents]

lemma pyIntOfStr_valueError : ∀ (s : List Char) (e : PyErr),
    pyIntOfStr s = .error e → e = .valueError := by
  intro s e h
  simp only [pyIntOfStr] at h
  split at h <;>
  · split at h
    · exact absurd h (by simp [Functor.map, Except.map])
    · simp only [Functor.map, Except.map] at h
      simpa using h.symm

/-- C7 counterexample: constructing a `SimpleTemplate` from the template
"abc", in which the placeholder of keyword "id" is absent, does not raise:
`__init__` is total (`str.find` yields -1 and slicing never raises) and
silently produces the split prefix "ab" / suffix "", under which `parse`
even succeeds on "abX".  This refutes the claim's fail-fast construction
error. -/
theorem template_init_no_raise_cex :
    absentTemplate.template = toL "abc"
    ∧ absentTemplate.pref = toL "ab"
    ∧ absentTemplate.suff = []
    ∧ absentTemplate.parseE (toL "abX") = .ok (some (toL "X")) := by
  refine ⟨rfl, by decide, by decide, rfl⟩

/-- C7 (amended): construction never raises — a template missing the
placeholder is accepted silently (see the counterexample for the resulting
split) — and, provided the target type's constructor fails only with
ValueError (as `int` and `str` do), `parse` never raises on any input:
it always returns a value or null. -/
theorem template_failure_semantics_amended :
    (∀ (T : Type) (t : SimpleTemplate T),
      (∀ s e, t.ofStr s = .error e → e = .valueError) →
      ∀ val, ∃ o, t.parseE val = .ok o)
    ∧ (SimpleTemplate.init (toL "abc") (toL "id") [] [] strOfStr id).pref = toL "ab" := by
  constructor
  · intro T t h val
    by_cases hp : t.pref <+: val
    · by_cases hs : t.suff = []
      · rw [parseE_match_empty t val hp hs]
        rcases hov : t.ofStr (val.drop t.pref.length) with e | w
        · have := h _ _ hov
          subst this
          exact ⟨none, by simp [handleVE, hov]⟩
        · exact ⟨some w, by simp [handleVE, hov]⟩
      · by_cases hsf : t.suff <:+ val
        · rw [parseE_match_suffix t val hp hs hsf]
          rcases hov : t.ofStr (pySlice val (t.pref.length : Int) (-(t.suff.length : Int)))
            with e | w
          · have := h _ _ hov
            subst this
            exact ⟨none, by simp [handleVE, hov]⟩
          · exact ⟨some w, by simp [handleVE, hov]⟩
        · rw [parseE_no_match t val (by tauto)]
          exact ⟨none, rfl⟩
    · rw [parseE_no_match t val (by tauto)]
      exact ⟨none, rfl⟩
  · decide

/-- Witness for C7: the amended theorem applied to the concrete integer
template on a malformed input. -/
theorem template_failure_semantics_amended_witness :
    ∃ o, urnTemplate.parseE (toL "garbage") = .ok o :=
  template_failure_semantics_amended.1 Int urnTemplate pyIntOfStr_valueError (toL "garbage")

/-- C8 counterexample: for the template "a{id}b" constructed with the
caller-supplied outer prefix "P", `format "x"` yields "axb" (it uses the
original template only) while `format_full "x"` yields "Paxb", so the
claimed equality fails whenever an outer prefix or suffix is supplied. -/
theorem format_outer_affix_cex :
    outerPrefTemplate.format (toL "x") = .ok (toL "axb")
    ∧ outerPrefTemplate.format_full (toL "x") = toL "Paxb"
    ∧ ((toL "axb" == toL "Paxb") = false) :=
  ⟨rfl, by decide, by decide⟩

/-- C8 (amended): for a well-formed template — brace-free literal text
around exactly one `{keyword}` placeholder with a nonempty brace-free
keyword — and with NO caller-supplied outer prefix or suffix, `format`
and `format_full` agree: both produce prefix ++ str(value) ++ suffix. -/
theorem format_paths_agree_amended (T : Type) (ofS : List Char → Except PyErr T) (toS : T → List Char)
    (A B kw : List Char) (arg : T)
    (hA : braceFree A = true) (hB : braceFree B = true)
    (hkw : braceFree kw = true) (hne : kw ≠ []) :
    (SimpleTemplate.init (A ++ placeholderOf kw ++ B) kw [] [] ofS toS).format arg
      = .ok ((SimpleTemplate.init (A ++ placeholderOf kw ++ B) kw [] [] ofS toS).format_full
          arg) := by
  simp only [SimpleTemplate.format, SimpleTemplate.format_full]
  rw [init_pref A B kw [] [] ofS toS hA, init_suff A B kw [] [] ofS toS hA]
  show pyFormat kw (toS arg) (A ++ placeholderOf kw ++ B)
    = .ok (([] ++ A) ++ toS arg ++ (B ++ []))
  rw [pyFormat_placed A B kw (toS arg) hA hB hkw hne]
  simp

/-- Witness for C8: the amended theorem at a concrete template and value. -/
theorem format_paths_agree_amended_witness :
    (SimpleTemplate.init (toL "u-" ++ placeholderOf (toL "id") ++ toL "!") (toL "id") [] []
        strOfStr id).format (toL "7")
      = .ok ((SimpleTemplate.init (toL "u-" ++ placeholderOf (toL "id") ++ toL "!") (toL "id")
          [] [] strOfStr id).format_full (toL "7")) :=
  format_paths_agree_amended (List Char) strOfStr id (toL "u-") (toL "!") (toL "id") (toL "7")
    (by decide) (by decide) (by decide) (by decide)

/-- C9: `parse` returns null unless the input starts with the prefix and
(when the suffix is nonempty) ends with the suffix; on a match it feeds
the Python slice between them — the entire remainder after the prefix
when the suffix is empty — to the target type's constructor, turning a
ValueError into null (`handleVE`).  Concretely, for "urn:li:msg:{id}"
with integer type: format_full 42 = "urn:li:msg:42",
parse "urn:li:msg:42" = 42, parse of "urn:li:other:42" and
"not-a-match" is null, and for "prefix-{id}" with string type,
parse "prefix-42extra" = "42extra". -/
theorem parse_contract_round_trip :
    (∀ (T : Type) (t : SimpleTemplate T) (val : List Char),
        (¬ (t.pref <+: val ∧ (t.suff = [] ∨ t.suff <:+ val)) → t.parseE val = .ok none)
      ∧ (t.pref <+: val → t.suff ≠ [] → t.suff <:+ val →
          t.parseE val = handleVE (t.ofStr
            (pySlice val (t.pref.length : Int) (-(t.suff.length : Int)))))
      ∧ (t.pref <+: val → t.suff = [] →
          t.parseE val = handleVE (t.ofStr (val.drop t.pref.length))))
    ∧ urnTemplate.format_full 42 = toL "urn:li:msg:42"
    ∧ urnTemplate.parseE (toL "urn:li:msg:42") = .ok (some 42)
    ∧ urnTemplate.parseE (toL "urn:li:other:42") = .ok none
    ∧ urnTemplate.parseE (toL "not-a-match") = .ok none
    ∧ rawIdTemplate.parseE (toL "prefix-42extra") = .ok (some (toL "42extra")) := by
  refine ⟨fun T t val => ⟨parseE_no_match t val,
    fun h1 h2 h3 => parseE_match_suffix t val h1 h2 h3,
    fun h1 h2 => parseE_match_empty t val h1 h2⟩,
    by decide, rfl, rfl, rfl, rfl⟩

/-- Witness for C9: the no-match branch of the contract at a concrete
input. -/
theorem parse_contract_round_trip_witness :
    urnTemplate.parseE (toL "zzz") = .ok none :=
  (parse_contract_round_trip.1 Int urnTemplate (toL "zzz")).1 (by decide)

/-- C10: for the template "ab{id}b" the derived prefix "ab" and suffix
"b" may overlap on a short input: parse "ab" (length 2 < 2 + 1) succeeds
with the value built from the empty string, yet every `format_full`
output has length at least 3, so `format_full` can never produce "ab"
(in particular `format_full ""` is "abb"); a successful parse therefore
does not imply the round trip. -/
theorem parse_overlap_short_input :
    overlapTemplate.pref = toL "ab"
    ∧ overlapTemplate.suff = toL "b"
    ∧ overlapTemplate.parseE (toL "ab") = .ok (some [])
    ∧ (toL "ab").length < overlapTemplate.pref.length + overlapTemplate.suff.length
    ∧ (∀ v : List Char, 3 ≤ (overlapTemplate.format_full v).length)
    ∧ overlapTemplate.format_full [] = toL "abb" := by
  refine ⟨by decide, by decide, rfl, by decide, ?_, by decide⟩
  intro v
  show 3 ≤ (overlapTemplate.pref ++ overlapTemplate.toStr v ++ overlapTemplate.suff).length
  have h1 : overlapTemplate.pref.length = 2 := by decide
  have h2 : overlapTemplate.suff.length = 1 := by decide
  simp [List.length_append, h1, h2]
  omega

/-- C6 counterexample: the call form `registry.register(3, "desc")`
passes two positional arguments to a method whose `index`/`description`
parameters are keyword-only, so Python raises TypeError instead of
registering anything. -/
theorem register_positional_call_cex :
    registerBind UpgradeTable.init [.int 3, .str (toL "desc")] (.inl (-1)) [] true none
      = .error .typeError := rfl

/-- C6 (amended): direct call and decorator use are identical — the
decorator returned by a bare `register(...)` call applied to a function
gives exactly the result of passing the function directly, with the same
description, transaction flag and destination metadata and the same
placement — and a string passed as `index` becomes the description with
the index reverting to -1; but positional placement must use the keyword
`index` (two positional arguments raise TypeError, see the
counterexample). -/
theorem register_call_forms_amended :
    (∀ (t : UpgradeTable) (fn : PreStep) (i : Sum Int (List Char)) (d : List Char)
        (tr : Bool) (u : Option UDestArg),
      ∃ k, t.register none i d tr u = .decorator k
        ∧ t.register (some fn) i d tr u = .registered (k fn))
    ∧ (∀ (t : UpgradeTable) (ofn : Option PreStep) (s d : List Char) (tr : Bool)
        (u : Option UDestArg),
      t.register ofn (.inr s) d tr u = t.register ofn (.inl (-1)) s tr u)
    ∧ (∀ (t : UpgradeTable) (fn : PreStep) (i : Sum Int (List Char)) (d : List Char)
        (tr : Bool) (u : Option UDestArg),
      registerBind t [.func fn] i d tr u = .ok (t.register (some fn) i d tr u)) := by
  refine ⟨?_, ?_, ?_⟩
  · intro t fn i d tr u
    cases i with
    | inl n => exact ⟨_, rfl, rfl⟩
    | inr s => exact ⟨_, rfl, rfl⟩
  · intro t ofn s d tr u
    rfl
  · intro t fn i d tr u
    rfl

/-- C5 counterexample: registering at position -2 into an empty registry
(-2 is strictly less than the length 0) raises IndexError via Python item
assignment instead of overwriting a slot, refuting the claim's universal
"position strictly less than the length overwrites" rule. -/
theorem register_negative_position_cex :
    actuallyRegister UpgradeTable.init (-2) [] true none regFn = .error .indexError := rfl

/-- C5 (amended): registering with position -1 or position equal to the
current length appends; a NONNEGATIVE position strictly less than the
length overwrites that slot leaving the length unchanged; a position
beyond the length pads the gap with no-op steps and places the step at
the requested slot — registering at position 5 into an empty registry
yields no-ops at 0..4 and the step at 5 — and a no-op step advances the
version by exactly one while changing nothing else.  (Other negative
positions follow Python item assignment: they wrap from the end or raise
IndexError, see the counterexample.) -/
theorem register_placement_amended :
    (∀ (t : UpgradeTable) (d : List Char) (tr : Bool) (u : Option UDestArg) (fn : PreStep),
        (actuallyRegister t (-1) d tr u fn
          = .ok ({ t with upgrades := t.upgrades ++ [mkRegStep d tr u fn] },
              mkRegStep d tr u fn))
      ∧ (actuallyRegister t (t.upgrades.length : Int) d tr u fn
          = .ok ({ t with upgrades := t.upgrades ++ [mkRegStep d tr u fn] },
              mkRegStep d tr u fn))
      ∧ (∀ i : Int, 0 ≤ i → i < (t.upgrades.length : Int) →
          actuallyRegister t i d tr u fn
            = .ok ({ t with upgrades := t.upgrades.set i.toNat (mkRegStep d tr u fn) },
                mkRegStep d tr u fn)
          ∧ (t.upgrades.set i.toNat (mkRegStep d tr u fn)).length = t.upgrades.length)
      ∧ (∀ i : Int, (t.upgrades.length : Int) < i →
          actuallyRegister t i d tr u fn
            = .ok ({ t with upgrades :=
                t.upgrades ++ List.replicate (i - t.upgrades.length).toNat noopStep
                  ++ [mkRegStep d tr u fn] }, mkRegStep d tr u fn)))
    ∧ (∀ (d : List Char) (tr : Bool) (u : Option UDestArg) (fn : PreStep),
        actuallyRegister UpgradeTable.init 5 d tr u fn
          = .ok ({ UpgradeTable.init with
              upgrades := List.replicate 5 noopStep ++ [mkRegStep d tr u fn] },
              mkRegStep d tr u fn))
    ∧ (∀ (t : UpgradeTable) (sch : Scheme) (v : Int) (db : DbData),
        pyIndex t.upgrades v = .ok noopStep →
        runIter t sch v db = .ok (v + 1, saveVersionDb db (v + 1),
          iterEvents true v (some (v + 1)) (v + 1))) := by
  refine ⟨?_, ?_, ?_⟩
  · intro t d tr u fn
    refine ⟨?_, ?_, ?_, ?_⟩
    · unfold actuallyRegister
      rw [if_pos (Or.inl rfl)]
    · unfold actuallyRegister
      rw [if_pos (Or.inr rfl)]
    · intro i h0 h1
      constructor
      · unfold actuallyRegister
        rw [if_neg (by omega), if_neg (by omega)]
        simp only [pyListSet_nonneg t.upgrades i (mkRegStep d tr u fn) h0 h1]
      · simp
    · intro i hgt
      unfold actuallyRegister
      rw [if_neg (by omega), if_pos (by omega)]
      have hlen : ((t.upgrades ++ List.replicate ((i - t.upgrades.length).toNat + 1)
          noopStep).length : Int) = t.upgrades.length + ((i - t.upgrades.length).toNat + 1) := by
        simp
      simp only [pyListSet_nonneg _ i (mkRegStep d tr u fn) (by omega) (by rw [hlen]; omega)]
      rw [set_append_right t.upgrades _ i.toNat (mkRegStep d tr u fn) (by omega)]
      rw [show i.toNat - t.upgrades.length = (i - t.upgrades.length).toNat by omega]
      rw [set_replicate_last ((i - t.upgrades.length).toNat) noopStep (mkRegStep d tr u fn)]
      simp
  · intro d tr u fn
    rfl
  · intro t sch v db hidx
    simp only [runIter]
    rw [hidx]
    show Except.ok (v + 1, saveVersionDb db (v + 1),
      ([] ++ [Event.logDebugUpgrading v (some (v + 1))])
        ++ [Event.txBegin, Event.runBody v, Event.saveVersion (v + 1), Event.txCommit]
        ++ (if some (v + 1) ≠ some (v + 1) then [Event.logWarnMismatch v (v + 1)] else []))
      = _
    rw [if_neg (by simp)]
    simp [iterEvents]



/-- Witness for C5: the overwrite case and the no-op step semantics at
concrete inputs. -/
theorem register_placement_amended_witness :
    (actuallyRegister noopTable 0 (toL "d") true none regFn
        = .ok ({ noopTable with
            upgrades := noopTable.upgrades.set 0 (mkRegStep (toL "d") true none regFn) },
            mkRegStep (toL "d") true none regFn)
      ∧ (noopTable.upgrades.set 0 (mkRegStep (toL "d") true none regFn)).length
          = noopTable.upgrades.length)
    ∧ runIter noopTable .postgres 0 currentDb
        = .ok (1, saveVersionDb currentDb 1, iterEvents true 0 (some 1) 1) :=
  ⟨(register_placement_amended.1 noopTable (toL "d") true none regFn).2.2.1 0 (by decide)
      (by decide),
   register_placement_amended.2.2 noopTable .postgres 0 currentDb rfl⟩

/-- C2: with N registered steps and a persisted version v > N, `upgrade`
raises `UnsupportedDatabaseVersion` carrying the database name, v and N
and performs no writes when unsupported versions are disallowed, and
logs a warning and returns with the database untouched when they are
allowed. -/
theorem upgrade_unsupported_version :
    ∀ (t : UpgradeTable) (sch : Scheme) (fuel : Nat) (db : DbData) (v : Int),
      db.hasVersionTable = true → db.versionRow = some v →
      (t.upgrades.length : Int) < v →
      ((t.allowUnsupported = false →
        t.upgrade sch fuel db =
          .failed (.unsupportedDatabaseVersion t.databaseName v t.upgrades.length) db
            [.createTable, .readVersion])
      ∧ (t.allowUnsupported = true →
        t.upgrade sch fuel db =
          .ok db [.createTable, .readVersion,
            .logWarnUnsupported t.databaseName v t.upgrades.length])) := by
  intro t sch fuel db v hT hRow hGt
  have hdb0 : ({ db with hasVersionTable := true } : DbData) = db := by
    cases db
    simp only at hT
    subst hT
    rfl
  constructor <;> intro hal <;>
    simp only [UpgradeTable.upgrade, hdb0, hRow, hal, Option.getD_some, if_pos hGt] <;>
    simp <;> (rw [← hRow]; exact hdb0)

/-- Witness for C2: both branches at a one-step registry and a database
at version 5. -/
theorem upgrade_unsupported_version_witness :
    (noopTable.upgrade .postgres 3 aheadDb =
      .failed (.unsupportedDatabaseVersion (toL "database") 5 1) aheadDb
        [.createTable, .readVersion])
    ∧ (allowTable.upgrade .postgres 3 aheadDb =
      .ok aheadDb [.createTable, .readVersion, .logWarnUnsupported (toL "database") 5 1]) :=
  ⟨(upgrade_unsupported_version noopTable .postgres 3 aheadDb 5 rfl rfl (by decide)).1 rfl,
   (upgrade_unsupported_version allowTable .postgres 3 aheadDb 5 rfl rfl (by decide)).2 rfl⟩

/-- C3 counterexample: a transactional step whose callable destination
runs on the connection before the transaction opens and overwrites the
persisted version row with 99; when the body then raises, the rollback
undoes only the transaction, so the whole call fails with the persisted
version at 99, not at its pre-step value 0 — refuting the claim that the
persisted version always remains at the value it had before the step. -/
theorem upgrade_dest_write_cex :
    dbAt0.versionRow = some 0
    ∧ destWriteTable.upgrade .postgres 3 dbAt0 =
        .failed (.py (.userError (toL "boom")))
          { hasVersionTable := true, versionRow := some 99, applied := [] }
          [.createTable, .readVersion, .acquireConn, .runDest 0,
           .logDebugUpgrading 0 (some 7), .txBegin, .runBody 0, .txRollback]
    ∧ ((some (99 : Int) == some 0) = false) :=
  ⟨rfl, rfl, by decide⟩

/-- C3 (amended): when a transactional step's body raises, the
transaction (which would also have carried the version save) rolls back
entirely, the loop fails immediately with no further step run, and the
database — persisted version included — is restored exactly to the
state it had when the transaction opened, i.e. after the step's
destination resolution; whenever the destination is not itself callable,
that state is exactly the pre-step state, so earlier committed steps
stand and the version is at its pre-step value.  The theorem covers
every transactional step, callable destinations included. -/
theorem upgrade_transactional_rollback :
    ∀ (t : UpgradeTable) (sch : Scheme) (fuel : Nat) (v : Int) (db : DbData) (s : UStep)
      (e : PyErr) (dbf : DbData) (nv : Option Int) (dbR : DbData) (evsR : List Event),
      v < (t.upgrades.length : Int) →
      pyIndex t.upgrades v = .ok s →
      s.transaction = true →
      resolveDest s.destination v db sch = .ok (nv, dbR, evsR) →
      s.body dbR sch = .err e dbf →
      upgradeLoop t sch (fuel + 1) v db =
        .failed (.py e) dbR
          (evsR ++ [.logDebugUpgrading v nv, .txBegin, .runBody v, .txRollback])
      ∧ ((∀ f, s.destination ≠ some (.toFn f)) → dbR = db ∧ evsR = []) := by
  intro t sch fuel v db s e dbf nv dbR evsR hv hidx htr hres hbody
  constructor
  · have hrun : runIter t sch v db = .error (.py e, dbR,
        evsR ++ [.logDebugUpgrading v nv, .txBegin, .runBody v, .txRollback]) := by
      simp only [runIter, hidx, hres, htr, hbody]
      simp
    rw [upgradeLoop, if_pos hv, hrun]
  · intro hstatic
    cases hd : s.destination with
    | none =>
      rw [hd] at hres
      simp only [resolveDest, destTruthy] at hres
      simp only [Except.ok.injEq, Prod.mk.injEq] at hres
      exact ⟨hres.2.1.symm, hres.2.2.symm⟩
    | some u =>
      cases u with
      | toInt n =>
        rw [hd] at hres
        by_cases hn : n = 0
        · simp only [resolveDest, destTruthy, if_pos hn] at hres
          simp only [Except.ok.injEq, Prod.mk.injEq] at hres
          exact ⟨hres.2.1.symm, hres.2.2.symm⟩
        · simp only [resolveDest, destTruthy, if_neg hn] at hres
          simp only [Except.ok.injEq, Prod.mk.injEq] at hres
          exact ⟨hres.2.1.symm, hres.2.2.symm⟩
      | toFn f => exact absurd hd (hstatic f)

/-- Witness for C3: the amended theorem applied to the failing
transactional step of `failTable` (static destination: the database is
restored exactly to its pre-step state) and to `destWriteStep` (callable
destination: restored to the post-resolution state carrying the
destination's write). -/
theorem upgrade_transactional_rollback_witness :
    (upgradeLoop failTable .postgres 1 0 currentDb =
        .failed (.py (.userError (toL "boom"))) currentDb
          [.logDebugUpgrading 0 (some 1), .txBegin, .runBody 0, .txRollback])
    ∧ (currentDb = currentDb ∧ ([] : List Event) = [])
    ∧ (upgradeLoop destWriteTable .postgres 1 0 dbAt0 =
        .failed (.py (.userError (toL "boom")))
          { hasVersionTable := true, versionRow := some 99, applied := [] }
          [.runDest 0, .logDebugUpgrading 0 (some 7), .txBegin, .runBody 0, .txRollback]) :=
  ⟨(upgrade_transactional_rollback failTable .postgres 0 0 currentDb failStep
      (.userError (toL "boom")) { currentDb with applied := [toL "ddl"] } (some 1) currentDb []
      (by decide) rfl rfl rfl rfl).1,
   (upgrade_transactional_rollback failTable .postgres 0 0 currentDb failStep
      (.userError (toL "boom")) { currentDb with applied := [toL "ddl"] } (some 1) currentDb []
      (by decide) rfl rfl rfl rfl).2 (fun f h => Option.noConfusion h),
   (upgrade_transactional_rollback destWriteTable .postgres 0 0 dbAt0 destWriteStep
      (.userError (toL "boom"))
      { hasVersionTable := true, versionRow := some 99, applied := [] } (some 7)
      { hasVersionTable := true, versionRow := some 99, applied := [] } [.runDest 0]
      (by decide) rfl rfl rfl rfl).1⟩

/-- C4: when the persisted version equals the number of registered steps,
`upgrade` returns after only the version-table create and version read —
no connection acquired, no transaction opened, no step body run, database
unchanged — and after any successful `upgrade`, a second call executes no
step body at all. -/
theorem upgrade_idempotent :
    (∀ (t : UpgradeTable) (sch : Scheme) (fuel : Nat) (db : DbData),
      db.hasVersionTable = true →
      db.versionRow = some (t.upgrades.length : Int) →
      t.upgrade sch fuel db = .ok db [.createTable, .readVersion, .logDebugCurrent])
    ∧ (∀ (t : UpgradeTable) (sch : Scheme) (f1 f2 : Nat) (db db1 : DbData)
        (evs1 : List Event),
      t.upgrade sch f1 db = .ok db1 evs1 →
      ∀ i, Event.runBody i ∉ outcomeEvents (t.upgrade sch f2 db1)) := by
  constructor
  · intro t sch fuel db hT hRow
    have hdb0 : ({ db with hasVersionTable := true } : DbData) = db := by
      cases db
      simp only at hT
      subst hT
      rfl
    simp only [UpgradeTable.upgrade, hdb0, hRow, Option.getD_some]
    rw [if_neg (by omega), if_pos trivial, ← hRow, hdb0]
    rfl
  · intro t sch f1 f2 db db1 evs1 h i
    exact upgrade_noBody_of_ge t sch f2 db1 (upgrade_ok_ge t sch f1 db db1 evs1 h) i

/-- Witness for C4: the no-op second call on `noopTable`, both as the
already-current fast path and as the call following a successful fresh
upgrade. -/
theorem upgrade_idempotent_witness :
    (noopTable.upgrade .postgres 3 currentDb =
      .ok currentDb [.createTable, .readVersion, .logDebugCurrent])
    ∧ Event.runBody 0 ∉ outcomeEvents (noopTable.upgrade .postgres 7 currentDb) :=
  ⟨upgrade_idempotent.1 noopTable .postgres 3 currentDb rfl rfl,
   upgrade_idempotent.2 noopTable .postgres 3 7 freshDb currentDb
     [.createTable, .readVersion, .acquireConn, .logDebugUpgrading 0 (some 1),
      .txBegin, .runBody 0, .saveVersion 1, .txCommit] rfl 0⟩

/-- C1 counterexample: a step body that returns the non-null explicit
version 0 when the computed default is 1 does NOT override the target:
Python `or` treats 0 as falsy, so the code persists version 1, not the
returned 0 (the claimed behavior would persist 0 and rerun step 0). -/
theorem upgrade_zero_return_cex :
    zeroStep.body freshDb .postgres = .ok (some 0) freshDb
    ∧ zeroTable.upgrade .postgres 3 freshDb =
        .ok { hasVersionTable := true, versionRow := some 1, applied := [] }
          [.createTable, .readVersion, .acquireConn, .logDebugUpgrading 0 (some 1),
           .txBegin, .runBody 0, .saveVersion 1, .txCommit]
    ∧ ((some (1 : Int) == some 0) = false) :=
  ⟨rfl, rfl, by decide⟩

/-- C1 (amended): for a step executed at version v, the target resolves
per `resolveDest`: the declared destination when one is declared — an
integer directly, or, when the destination is itself callable, the value
obtained by invoking it with the connection and schema descriptor — and
v + 1 when none is declared or the declared integer is 0 (Python
truthiness).  The body's return value overrides that target when it is
non-null AND nonzero (`pyOrInt`); the resulting version v2 is persisted,
a mismatch warning is logged exactly when v2 differs from the resolved
target, and the loop continues at index v2 — so a body returning 10
against a computed default of 3 makes index 10 the next step executed. -/
theorem upgrade_actual_version_amended :
    ∀ (t : UpgradeTable) (sch : Scheme) (fuel : Nat) (v : Int) (db : DbData) (s : UStep)
      (nv : Option Int) (dbR : DbData) (evsR : List Event)
      (ret : Option Int) (db2 : DbData) (v2 : Int),
      v < (t.upgrades.length : Int) →
      pyIndex t.upgrades v = .ok s →
      resolveDest s.destination v db sch = .ok (nv, dbR, evsR) →
      s.body dbR sch = .ok ret db2 →
      pyOrInt ret nv = some v2 →
      runIter t sch v db
          = .ok (v2, saveVersionDb db2 v2, evsR ++ iterEvents s.transaction v nv v2)
      ∧ (saveVersionDb db2 v2).versionRow = some v2
      ∧ ((Event.logWarnMismatch v v2 ∈ iterEvents s.transaction v nv v2) ↔ some v2 ≠ nv)
      ∧ upgradeLoop t sch (fuel + 1) v db
          = withEvents (evsR ++ iterEvents s.transaction v nv v2)
              (upgradeLoop t sch fuel v2 (saveVersionDb db2 v2))
      ∧ (s.destination = none → nv = some (v + 1) ∧ dbR = db ∧ evsR = [])
      ∧ (∀ n : Int, s.destination = some (.toInt n) →
          (n = 0 → nv = some (v + 1)) ∧ (n ≠ 0 → nv = some n) ∧ dbR = db ∧ evsR = [])
      ∧ (∀ f, s.destination = some (.toFn f) →
          ∃ r, f db sch = .ok r dbR ∧ nv = r ∧ evsR = [Event.runDest v]) := by
  intro t sch fuel v db s nv dbR evsR ret db2 v2 hv hidx hres hbody hpy
  have hrun : runIter t sch v db
      = .ok (v2, saveVersionDb db2 v2, evsR ++ iterEvents s.transaction v nv v2) := by
    simp only [runIter, hidx, hres, hbody, hpy]
    cases htr : s.transaction <;> simp [iterEvents, htr]
  refine ⟨hrun, rfl, ?_, ?_, ?_, ?_, ?_⟩
  · simp only [iterEvents]
    constructor
    · intro hmem
      by_cases hne : some v2 = nv
      · exfalso
        rw [if_neg (not_not_intro hne), List.append_nil] at hmem
        rcases List.mem_append.mp hmem with h1 | h2
        · simp at h1
        · by_cases htr : s.transaction = true
          · rw [if_pos htr] at h2
            simp at h2
          · rw [if_neg htr] at h2
            simp at h2
      · exact hne
    · intro hne
      rw [if_pos hne]
      simp [List.mem_append]
  · rw [upgradeLoop, if_pos hv, hrun]
  · intro hd
    rw [hd] at hres
    simp only [resolveDest, destTruthy] at hres
    simp only [Except.ok.injEq, Prod.mk.injEq] at hres
    exact ⟨hres.1.symm, hres.2.1.symm, hres.2.2.symm⟩
  · intro n hd
    rw [hd] at hres
    by_cases hn : n = 0
    · simp only [resolveDest, destTruthy, if_pos hn] at hres
      simp only [Except.ok.injEq, Prod.mk.injEq] at hres
      exact ⟨fun _ => hres.1.symm, fun hne => absurd hn hne, hres.2.1.symm, hres.2.2.symm⟩
    · simp only [resolveDest, destTruthy, if_neg hn] at hres
      simp only [Except.ok.injEq, Prod.mk.injEq] at hres
      exact ⟨fun h0 => absurd h0 hn, fun _ => hres.1.symm, hres.2.1.symm, hres.2.2.symm⟩
  · intro f hd
    rw [hd] at hres
    simp only [resolveDest, destTruthy] at hres
    rcases hf : f db sch with ⟨r, db1⟩ | ⟨e1, db1⟩
    · simp only [hf] at hres
      simp only [Except.ok.injEq, Prod.mk.injEq] at hres
      obtain ⟨h1, h2, h3⟩ := hres
      exact ⟨r, by rw [h2], h1.symm, h3.symm⟩
    · simp only [hf] at hres
      exact absurd hres (by simp)

/-- Witness for C1: at index 2 of an 11-step registry, `jumpStep` returns
10 against the computed static default 3, the loop continues at index 10
and the mismatch warning is logged; and at index 2 of a 5-step registry,
`dynStep`'s callable destination is invoked (the `runDest` event) and
resolves the target to 4, which the body's `None` return leaves in
force. -/
theorem upgrade_actual_version_amended_witness :
    (runIter t11 .postgres 2 dbAt2
        = .ok (10, saveVersionDb dbAt2 10, [] ++ iterEvents true 2 (some 3) 10))
    ∧ ((Event.logWarnMismatch 2 10 ∈ iterEvents true 2 (some 3) 10) ↔ some (10 : Int) ≠ some 3)
    ∧ (upgradeLoop t11 .postgres 5 2 dbAt2
        = withEvents ([] ++ iterEvents true 2 (some 3) 10)
            (upgradeLoop t11 .postgres 4 10 (saveVersionDb dbAt2 10)))
    ∧ (runIter tDyn .postgres 2 dbAt2
        = .ok (4, saveVersionDb dbAt2 4, [Event.runDest 2] ++ iterEvents true 2 (some 4) 4)) :=
  ⟨(upgrade_actual_version_amended t11 .postgres 4 2 dbAt2 jumpStep (some 3) dbAt2 []
      (some 10) dbAt2 10 (by decide) rfl rfl rfl rfl).1,
   (upgrade_actual_version_amended t11 .postgres 4 2 dbAt2 jumpStep (some 3) dbAt2 []
      (some 10) dbAt2 10 (by decide) rfl rfl rfl rfl).2.2.1,
   (upgrade_actual_version_amended t11 .postgres 4 2 dbAt2 jumpStep (some 3) dbAt2 []
      (some 10) dbAt2 10 (by decide) rfl rfl rfl rfl).2.2.2.1,
   (upgrade_actual_version_amended tDyn .postgres 4 2 dbAt2 dynStep (some 4) dbAt2
      [Event.runDest 2] none dbAt2 4 (by decide) rfl rfl rfl rfl).1⟩
